import Mathlib

/-!
Verification of the preview-panel lifecycle and diagram-block extraction
engine of the mermaid-viewer editor extension (`src/previewPanel.ts`),
as a shallow embedding in Lean 4.

Part 1: text primitives and the block extractor
(`_collectMermaidBlocks`, the regex scan over markdown text, and the
standalone-diagram branch).
-/

namespace MermaidViewer

/-- Whitespace characters matched by the JavaScript regex class `\s`
(ASCII whitespace plus the Unicode space characters). -/
def isJsWhitespace (c : Char) : Bool :=
  c = ' ' || c = '\t' || c = '\n' || c = '\r' || c = '\x0b' || c = '\x0c' ||
  c = '\u00A0' || c = '\u1680' ||
  ('\u2000' ≤ c && c ≤ '\u200A') ||
  c = '\u2028' || c = '\u2029' || c = '\u202F' || c = '\u205F' ||
  c = '\u3000' || c = '\uFEFF'

/-- The character class `[^\S\r\n]` of the fence regex: any `\s`
character except carriage return and line feed. -/
def isInlineWhitespace (c : Char) : Bool :=
  isJsWhitespace c && !(c = '\r') && !(c = '\n')

/-- JavaScript `String.prototype.trim`: drop `\s` characters from both
ends of the text. -/
def jsTrim (s : List Char) : List Char :=
  ((s.dropWhile isJsWhitespace).reverse.dropWhile isJsWhitespace).reverse

/-- Number of line feeds in a character list. -/
def countNewlines (s : List Char) : Nat :=
  (s.filter (fun c => c = '\n')).length

/-- `document.lineCount`: one more than the number of line feeds. -/
def lineCount (s : List Char) : Nat := countNewlines s + 1

/-- `document.positionAt(offset).line`: the number of line feeds strictly
before the (clamped) offset. -/
def lineAt (s : List Char) (offset : Nat) : Nat :=
  countNewlines (s.take offset)

/-- Does `pat` occur as a prefix of `s`? -/
def listStartsWith : List Char → List Char → Bool
  | [], _ => true
  | _ :: _, [] => false
  | p :: ps, c :: cs => p = c && listStartsWith ps cs

/-- Index of the first occurrence of `pat` in `s`, if any. -/
def findPat (pat : List Char) : List Char → Option Nat
  | [] => if listStartsWith pat [] then some 0 else none
  | c :: rest =>
      if listStartsWith pat (c :: rest) then some 0
      else (findPat pat rest).map (· + 1)

/-- Index of the first occurrence of `pat` in `s` at or after index `i`. -/
def findFrom (pat s : List Char) (i : Nat) : Option Nat :=
  (findPat pat (s.drop i)).map (· + i)

/-- Skip the maximal run of `[^\S\r\n]` characters starting at index `i`. -/
def skipInlineWs (s : List Char) (i : Nat) : Nat :=
  i + ((s.drop i).takeWhile isInlineWhitespace).length

/-- Match the mandatory `(?:\r?\n)` of the fence regex at index `q`,
returning the index just past the newline. -/
def newlineAt (s : List Char) (q : Nat) : Option Nat :=
  if listStartsWith ['\r', '\n'] (s.drop q) then some (q + 2)
  else if listStartsWith ['\n'] (s.drop q) then some (q + 1)
  else none

/-- The optional `(?:\r?\n)?` just before the closing fence: strip one
trailing `\r\n` (preferred) or `\n` from the lazily-matched content. -/
def stripTrailingNewline (l : List Char) : List Char :=
  match l.reverse with
  | '\n' :: '\r' :: rest => rest.reverse
  | '\n' :: rest => rest.reverse
  | _ => l

/-- One successful match of the fence regex: the start offset of the
opening fence, the offset just past the closing fence, and the captured
(group-1) content. -/
structure RawMatch where
  openIdx : Nat
  endIdx : Nat
  content : List Char
deriving DecidableEq, Repr

/-- The literal opening token of the fence regex. -/
def openFence : List Char := "```mermaid".toList

/-- The literal closing token of the fence regex. -/
def closeFence : List Char := "```".toList

/-- The global-regex `exec` loop of `_collectMermaidBlocks` over markdown
text: from search position `i`, find the next `"```mermaid"` candidate;
skip inline whitespace; require a newline (otherwise the engine resumes
from the next character); then the lazy `[\s\S]*?` followed by
`(?:\r?\n)?```” matches up to the first subsequent `"```"`, with one
trailing newline stripped from the captured content.  `fuel` bounds the
recursion; every step strictly advances the search position. -/
def scanRawAux (s : List Char) : Nat → Nat → List RawMatch
  | 0, _ => []
  | fuel + 1, i =>
    match findFrom openFence s i with
    | none => []
    | some j =>
      let q := skipInlineWs s (j + 10)
      match newlineAt s q with
      | none => scanRawAux s fuel (j + 1)
      | some p =>
        match findFrom closeFence s p with
        | none => []
        | some m =>
          let matchEnd := m + 3
          let content := stripTrailingNewline ((s.take m).drop p)
          ⟨j, matchEnd, content⟩ :: scanRawAux s fuel matchEnd

/-- All fence pairs of a markdown text, in scan order. -/
def scanRaw (s : List Char) : List RawMatch :=
  scanRawAux s (s.length + 1) 0

/-- One detected diagram unit (`MermaidBlock` in the source). -/
structure MermaidBlock where
  code : List Char
  startLine : Nat
  endLine : Nat
deriving DecidableEq, Repr

/-- Turn a fence pair into a block: trim the captured content, skip the
pair when the trimmed content is empty, otherwise compute the line range
from the absolute offsets (`document.positionAt`). -/
def rawToBlock (s : List Char) (r : RawMatch) : Option MermaidBlock :=
  let code := jsTrim r.content
  if code.isEmpty then none
  else some ⟨code, lineAt s r.openIdx, lineAt s r.endIdx⟩

/-- The markdown branch of `_collectMermaidBlocks`. -/
def collectMarkdownBlocks (s : List Char) : List MermaidBlock :=
  (scanRaw s).filterMap (rawToBlock s)

/-- A host text document: stable URI, monotonic version, language kind,
and the full text (`document.getText()`). -/
structure TextDocument where
  uri : String
  version : Nat
  languageId : String
  text : List Char
deriving DecidableEq, Repr

/-- `_collectMermaidBlocks(document, text)`: for standalone
`mermaid`-language documents the whole trimmed text is one block spanning
the full line range (empty trimmed text gives no block); for other
documents, the fenced-block scan. -/
def collectMermaidBlocks (d : TextDocument) : List MermaidBlock :=
  if d.languageId = "mermaid" then
    let trimmedCode := jsTrim d.text
    if trimmedCode.isEmpty then []
    else [⟨trimmedCode, 0, lineCount d.text - 1⟩]
  else collectMarkdownBlocks d.text

/-!
Part 2: the preview-panel state machine (`MermaidPreviewPanel`).

Reference identity of JavaScript arrays is modelled by an allocation
counter: every invocation of the extractor allocates a fresh
`BlockListRef` with a new `refId`; two lists are reference-equal exactly
when their `refId`s coincide.  Pending `setTimeout` timers live in an
environment list keyed by timer id; firing or `clearTimeout` removes
them.  Setting `webview.html` (a render, including error payloads) is
counted by the `rendered` field.
-/

/-- A block list together with its allocation identity. -/
structure BlockListRef where
  refId : Nat
  blocks : List MermaidBlock
deriving DecidableEq, Repr

/-- The per-panel `_blockCache`: a map from document URI to the cached
`(version, blocks)` pair (association list in insertion order, as a JS
`Map`). -/
abbrev BlockCache := List (String × Nat × BlockListRef)

/-- `Map.get`. -/
def cacheGet (c : BlockCache) (uri : String) : Option (Nat × BlockListRef) :=
  (c.find? (fun e => e.1 = uri)).map (fun e => e.2)

/-- `Map.set`: replace the entry for `uri` in place, or append a new
entry. -/
def cacheSet (c : BlockCache) (uri : String) (version : Nat)
    (r : BlockListRef) : BlockCache :=
  if c.any (fun e => e.1 = uri) then
    c.map (fun e => if e.1 = uri then (uri, version, r) else e)
  else c ++ [(uri, version, r)]

inductive PreviewMode
  | all
  | single
deriving DecidableEq, Repr

/-- The mutable fields of one `MermaidPreviewPanel` instance.
`updateTimeoutId` is the stored `_updateTimeout` handle (it may be stale:
the source never clears it when the timer fires). -/
structure Panel where
  panelId : Nat
  documentUri : String
  mode : PreviewMode
  currentDocument : Option TextDocument
  singleLine : Option Nat
  singleBlockIndex : Option Nat
  singleBlockStartLine : Option Nat
  singleBlockEndLine : Option Nat
  isDisposed : Bool
  firstUpdateRequestTime : Option Nat
  updateTimeoutId : Option Nat
  blockCache : BlockCache
  rendered : Nat
deriving DecidableEq, Repr

/-- Process-wide mutable context: the pending timers of the panel under
consideration (timer id, absolute fire time), fresh-id counters, and the
number of `_collectMermaidBlocks` invocations. -/
structure Env where
  timers : List (Nat × Nat)
  nextTimerId : Nat
  nextRefId : Nat
  extractorCalls : Nat
deriving DecidableEq, Repr

structure PanelEnv where
  panel : Panel
  env : Env
deriving DecidableEq, Repr

structure BlocksResult where
  ref : BlockListRef
  panel : Panel
  env : Env
deriving DecidableEq, Repr

/-- `_getMermaidBlocks`: return the cached list by reference when the
cached version equals the document's version; otherwise invoke the
extractor, allocate a fresh list, and store it under the document URI. -/
def getMermaidBlocks (p : Panel) (env : Env) (doc : TextDocument) :
    BlocksResult :=
  let hit := (cacheGet p.blockCache doc.uri).bind
    (fun vr => if vr.1 = doc.version then some vr.2 else none)
  match hit with
  | some r => ⟨r, p, env⟩
  | none =>
    let blocks := collectMermaidBlocks doc
    let r : BlockListRef := ⟨env.nextRefId, blocks⟩
    ⟨r,
      { p with blockCache := cacheSet p.blockCache doc.uri doc.version r },
      { env with nextRefId := env.nextRefId + 1,
                 extractorCalls := env.extractorCalls + 1 }⟩

/-- `_findBlockIndexForLine` (both call sites pass precomputed blocks):
index of the first block whose inclusive line range contains the line. -/
def findBlockIndexForLine (blocks : List MermaidBlock) (line : Nat) :
    Option Nat :=
  blocks.findIdx? (fun b => decide (b.startLine ≤ line) && decide (line ≤ b.endLine))

/-- `_renderSingle(lineNumber?, precomputedBlocks?)`: resolve the focused
block (adopting an index from the line when none is assigned), cache its
range or clear the cached range on failure, and set the webview content
(counted by `rendered`, also for the error payloads). -/
def renderSingle (p : Panel) (env : Env) (lineNumber : Option Nat)
    (precomputed : Option (List MermaidBlock)) : PanelEnv :=
  match p.currentDocument with
  | none => ⟨{ p with rendered := p.rendered + 1 }, env⟩
  | some doc =>
    let br : List MermaidBlock × Panel × Env :=
      match precomputed with
      | some bs => (bs, p, env)
      | none =>
        let r := getMermaidBlocks p env doc
        (r.ref.blocks, r.panel, r.env)
    let blocks := br.1
    let p := br.2.1
    let env := br.2.2
    let tip : Option Nat × Panel :=
      match p.singleBlockIndex, lineNumber with
      | none, some l =>
        let ti := findBlockIndexForLine blocks l
        (ti, { p with singleBlockIndex := ti })
      | ti, _ => (ti, p)
    let targetIndex := tip.1
    let p := tip.2
    match targetIndex.bind (fun i => blocks[i]?) with
    | none =>
      ⟨{ p with singleBlockStartLine := none, singleBlockEndLine := none,
                rendered := p.rendered + 1 }, env⟩
    | some b =>
      let p :=
        match lineNumber, p.singleLine with
        | some l, _ => { p with singleLine := some l }
        | none, none => { p with singleLine := some b.startLine }
        | none, some _ => p
      ⟨{ p with singleBlockStartLine := some b.startLine,
                singleBlockEndLine := some b.endLine,
                rendered := p.rendered + 1 }, env⟩

/-- `_renderAll`: extract all blocks for the current document (through
the cache) and set the webview content — the "no document" and
"no diagram found" error payloads also set content. -/
def renderAll (p : Panel) (env : Env) : PanelEnv :=
  match p.currentDocument with
  | none => ⟨{ p with rendered := p.rendered + 1 }, env⟩
  | some doc =>
    let r := getMermaidBlocks p env doc
    ⟨{ r.panel with rendered := r.panel.rendered + 1 }, r.env⟩

/-- `_render`: no-op when disposed; single-mode with a known line goes to
`_renderSingle`, everything else to `_renderAll`. -/
def render (p : Panel) (env : Env) : PanelEnv :=
  if p.isDisposed then ⟨p, env⟩
  else
    match p.mode, p.singleLine with
    | .single, some l => renderSingle p env (some l) none
    | _, _ => renderAll p env

/-- `clearTimeout` on an optional stored handle: remove that timer from
the pending set (a stale handle is a harmless no-op). -/
def jsClearTimeout (env : Env) (tid : Option Nat) : Env :=
  match tid with
  | none => env
  | some t => { env with timers := env.timers.filter (fun e => !(e.1 = t)) }

/-- The hard debounce ceiling of `updateContent` (milliseconds). -/
def maxDebounceTime : Nat := 3000

/-- `updateContent(document)`: ignored when disposed or for a foreign
URI; records the burst start (the source's falsy test makes a stored
time of 0 count as unset), cancels the outstanding timer, then either
forces an immediate render when the burst has lasted `maxDebounceTime`,
or arms a fresh timer `delay` from now.  `delay` is the `refreshDelay`
configuration value (default 500). -/
def updateContent (p : Panel) (env : Env) (doc : TextDocument)
    (now : Nat) (delay : Nat) : PanelEnv :=
  if p.isDisposed then ⟨p, env⟩
  else if ¬(doc.uri = p.documentUri) then ⟨p, env⟩
  else
    let p := { p with currentDocument := some doc }
    let first := if p.firstUpdateRequestTime.getD 0 = 0 then now
                 else p.firstUpdateRequestTime.getD 0
    let p := { p with firstUpdateRequestTime := some first }
    let timeSinceFirstRequest := now - first
    let env := jsClearTimeout env p.updateTimeoutId
    if maxDebounceTime ≤ timeSinceFirstRequest then
      render { p with firstUpdateRequestTime := none } env
    else
      ⟨{ p with updateTimeoutId := some env.nextTimerId },
        { env with timers := env.timers ++ [(env.nextTimerId, now + delay)],
                   nextTimerId := env.nextTimerId + 1 }⟩

/-- A pending debounce timer fires: it leaves the pending set and its
callback clears the burst timestamp and calls `_render`.  A timer id not
in the pending set never fires. -/
def fireTimer (p : Panel) (env : Env) (tid : Nat) : PanelEnv :=
  if env.timers.any (fun e => e.1 = tid) then
    let env := { env with timers := env.timers.filter (fun e => !(e.1 = tid)) }
    render { p with firstUpdateRequestTime := none } env
  else ⟨p, env⟩

/-- Fire every pending timer whose fire time has been reached, in
arrival order. -/
def fireDue (p : Panel) (env : Env) (now : Nat) : PanelEnv :=
  ((env.timers.filter (fun e => decide (e.2 ≤ now))).map (fun e => e.1)).foldl
    (fun pe tid => fireTimer pe.panel pe.env tid) ⟨p, env⟩

/-- One change event at absolute time `t`: overdue timers fire first,
then `updateContent` runs for the event. -/
def changeEventStep (doc : TextDocument) (delay : Nat) (pe : PanelEnv)
    (t : Nat) : PanelEnv :=
  let pe := fireDue pe.panel pe.env t
  updateContent pe.panel pe.env doc t delay

/-- A stream of change events at the given absolute times. -/
def processEvents (doc : TextDocument) (delay : Nat) (pe : PanelEnv)
    (ts : List Nat) : PanelEnv :=
  ts.foldl (changeEventStep doc delay) pe

/-- `handleSelectionChange(document, lineNumber)`: no-op outside single
mode or for a foreign URI (note: there is no disposed check here);
records the current document, resolves the block containing the line via
the cache, and applies the sticky-focus policy. -/
def handleSelectionChange (p : Panel) (env : Env) (doc : TextDocument)
    (line : Nat) : PanelEnv :=
  if ¬(p.mode = .single) then ⟨p, env⟩
  else if ¬(doc.uri = p.documentUri) then ⟨p, env⟩
  else
    let p := { p with currentDocument := some doc }
    let r := getMermaidBlocks p env doc
    let p := r.panel
    let env := r.env
    match findBlockIndexForLine r.ref.blocks line with
    | none => ⟨p, env⟩
    | some i =>
      match p.singleBlockIndex with
      | some j =>
        if ¬(i = j) then ⟨p, env⟩
        else ⟨{ p with singleLine := some line }, env⟩
      | none =>
        renderSingle
          { p with singleLine := some line, singleBlockIndex := some i }
          env (some line) (some r.ref.blocks)

/-- `dispose()`: idempotent; sets the terminal flag, clears the own
block cache, and cancels the pending debounce timer.  Removal from the
registry is modelled at world level. -/
def disposePanel (p : Panel) (env : Env) : PanelEnv :=
  if p.isDisposed then ⟨p, env⟩
  else
    let p := { p with isDisposed := true, blockCache := [] }
    match p.updateTimeoutId with
    | some tid =>
      ⟨{ p with updateTimeoutId := none },
        { env with timers := env.timers.filter (fun e => !(e.1 = tid)) }⟩
    | none => ⟨p, env⟩

/-- `_matches(document, mode, lineNumber?)`: equal URI and mode; for
single mode with a line, prefer the cached focused-block range, fall
back to exact-line equality, and fail when neither is known. -/
def panelMatches (p : Panel) (doc : TextDocument) (mode : PreviewMode)
    (line : Option Nat) : Bool :=
  if ¬(doc.uri = p.documentUri) then false
  else
    match mode with
    | .all => p.mode = PreviewMode.all
    | .single =>
      if ¬(p.mode = PreviewMode.single) then false
      else
        match line with
        | none => true
        | some l =>
          match p.singleBlockStartLine, p.singleBlockEndLine with
          | some s, some e => decide (s ≤ l) && decide (l ≤ e)
          | _, _ =>
            match p.singleLine with
            | some sl => l = sl
            | none => false

/-!
Part 3: the instance registry (`MermaidPreviewPanel._panels`) and the
static creation entry points.
-/

/-- The process-wide registry of live panels (a JS `Set`, iterated in
insertion order) together with the shared environment. -/
structure World where
  panels : List Panel
  nextPanelId : Nat
  env : Env
deriving DecidableEq, Repr

/-- `_findMatchingPanel`: the first live panel matching the query. -/
def findMatchingPanel (w : World) (doc : TextDocument) (mode : PreviewMode)
    (line : Option Nat) : Option Panel :=
  w.panels.find? (fun p => panelMatches p doc mode line)

/-- The private constructor: initialise the fields, add the panel to the
registry, persist state, and render the initial content. -/
def newPanel (w : World) (doc : TextDocument) (mode : PreviewMode)
    (singleLine : Option Nat) : World :=
  let p : Panel :=
    { panelId := w.nextPanelId, documentUri := doc.uri, mode := mode,
      currentDocument := some doc, singleLine := singleLine,
      singleBlockIndex := none, singleBlockStartLine := none,
      singleBlockEndLine := none, isDisposed := false,
      firstUpdateRequestTime := none, updateTimeoutId := none,
      blockCache := [], rendered := 0 }
  let r := render p w.env
  { panels := w.panels ++ [r.panel], nextPanelId := w.nextPanelId + 1,
    env := r.env }

/-- `createOrShow`: the `all`-mode entry point.  It builds a webview
panel and invokes the constructor unconditionally — no search for an
existing matching instance. -/
def createOrShow (w : World) (doc : TextDocument) : World :=
  newPanel w doc .all none

/-- `createOrShowSingle`: the `single`-mode entry point.  It first looks
for a matching live instance; when found it reveals that panel and
delivers the selection-change event to it instead of constructing a
duplicate. -/
def createOrShowSingle (w : World) (doc : TextDocument) (line : Nat) :
    World :=
  match findMatchingPanel w doc .single (some line) with
  | some existing =>
    let r := handleSelectionChange existing w.env doc line
    { w with
      panels := w.panels.map
        (fun q => if q.panelId = existing.panelId then r.panel else q),
      env := r.env }
  | none => newPanel w doc .single (some line)

/-- World-level `dispose()`: run the panel-level disposal and delete the
instance from the registry (`_panels.delete(this)`). -/
def disposeInWorld (w : World) (pid : Nat) : World :=
  match w.panels.find? (fun p => p.panelId = pid) with
  | none => w
  | some p =>
    let r := disposePanel p w.env
    { w with panels := w.panels.filter (fun q => !(q.panelId = pid)),
             env := r.env }

/-!
Part 4: auxiliary definitions used by the statements — the pending-timer
invariant and concrete sample data.
-/

/-- The timer discipline of one panel: at most one pending debounce
timer, it is the one recorded in `updateTimeoutId`, and its id was
issued by the timer-id counter. -/
def TimerInv (p : Panel) (env : Env) : Prop :=
  env.timers.length ≤ 1 ∧
  ∀ e ∈ env.timers, p.updateTimeoutId = some e.1 ∧ e.1 < env.nextTimerId

instance (p : Panel) (env : Env) : Decidable (TimerInv p env) := by
  unfold TimerInv; infer_instance

/-- A standalone mermaid document. -/
def sampleStandalone : TextDocument :=
  ⟨"file:///sample.mmd", 1, "mermaid", "A-->B".toList⟩

/-- A markdown document with one fenced diagram. -/
def sampleMarkdown : TextDocument :=
  ⟨"file:///sample.md", 1, "markdown", "```mermaid\nA-->B\n```".toList⟩

/-- A markdown document with two fenced diagrams, on lines 0–2 and 4–6. -/
def sampleTwoBlocks : TextDocument :=
  ⟨"file:///two.md", 1, "markdown",
    "```mermaid\nA\n```\nx\n```mermaid\nB\n```".toList⟩

/-- The empty environment at plugin activation. -/
def envInit : Env := ⟨[], 0, 0, 0⟩

/-- The empty registry at plugin activation. -/
def worldInit : World := ⟨[], 0, envInit⟩

/-- A fresh `all`-mode panel on `sampleStandalone`, as built by the
constructor before its initial render. -/
def samplePanel : Panel :=
  ⟨0, sampleStandalone.uri, .all, some sampleStandalone, none, none, none,
    none, false, none, none, [], 0⟩

/-- A `single`-mode panel on `sampleTwoBlocks` whose focus is already
assigned to block 0 (lines 0–2). -/
def singlePanelAssigned : Panel :=
  ⟨0, sampleTwoBlocks.uri, .single, some sampleTwoBlocks, some 1, some 0,
    some 0, some 2, false, none, none, [], 1⟩

/-- A `single`-mode panel on `sampleTwoBlocks` with no focus assigned
yet. -/
def singlePanelUnassigned : Panel :=
  ⟨0, sampleTwoBlocks.uri, .single, some sampleTwoBlocks, some 1, none,
    none, none, false, none, none, [], 1⟩

/-!
Part 5: theorems.  Extraction first (claims about
`_collectMermaidBlocks`), then the cache, the selection handler, the
registry, disposal, and the debounce scheduler.
-/

theorem findFrom_ge {pat s : List Char} {i j : Nat}
    (h : findFrom pat s i = some j) : i ≤ j := by
  unfold findFrom at h
  cases hf : findPat pat (s.drop i) with
  | none => rw [hf] at h; simp at h
  | some k =>
    rw [hf] at h
    simp only [Option.map_some', Option.some.injEq] at h
    omega

theorem newlineAt_gt {s : List Char} {q p : Nat}
    (h : newlineAt s q = some p) : q < p := by
  unfold newlineAt at h
  split_ifs at h <;> simp only [Option.some.injEq] at h <;> omega

theorem skipInlineWs_ge (s : List Char) (i : Nat) : i ≤ skipInlineWs s i :=
  Nat.le_add_right _ _

theorem scanRawAux_bounds (s : List Char) :
    ∀ fuel i r, r ∈ scanRawAux s fuel i →
      i ≤ r.openIdx ∧ r.openIdx < r.endIdx := by
  intro fuel
  induction fuel with
  | zero => intro i r h; simp [scanRawAux] at h
  | succ fuel ih =>
    intro i r h
    rw [scanRawAux] at h
    cases hf : findFrom openFence s i with
    | none => simp [hf] at h
    | some j =>
      simp only [hf] at h
      cases hn : newlineAt s (skipInlineWs s (j + 10)) with
      | none =>
        simp only [hn] at h
        have hb := ih (j + 1) r h
        have hji := findFrom_ge hf
        omega
      | some p =>
        simp only [hn] at h
        cases hm : findFrom closeFence s p with
        | none => simp [hm] at h
        | some m =>
          simp only [hm, List.mem_cons] at h
          have hji := findFrom_ge hf
          have hq := skipInlineWs_ge s (j + 10)
          have hqp := newlineAt_gt hn
          have hpm := findFrom_ge hm
          rcases h with h | h
          · subst h; simp; omega
          · have hb := ih (m + 3) r h
            omega

theorem scanRawAux_pairwise (s : List Char) :
    ∀ fuel i, List.Pairwise (fun a b => a.openIdx < b.openIdx)
      (scanRawAux s fuel i) := by
  intro fuel
  induction fuel with
  | zero => intro i; simp [scanRawAux]
  | succ fuel ih =>
    intro i
    rw [scanRawAux]
    cases hf : findFrom openFence s i with
    | none => simp [hf]
    | some j =>
      simp only [hf]
      cases hn : newlineAt s (skipInlineWs s (j + 10)) with
      | none => simp only [hn]; exact ih (j + 1)
      | some p =>
        simp only [hn]
        cases hm : findFrom closeFence s p with
        | none => simp [hm]
        | some m =>
          simp only [hm]
          refine List.Pairwise.cons ?_ (ih (m + 3))
          intro b hb
          have hb' := scanRawAux_bounds s fuel (m + 3) b hb
          have hq := skipInlineWs_ge s (j + 10)
          have hqp := newlineAt_gt hn
          have hpm := findFrom_ge hm
          simp
          omega

theorem length_filterMap_rawToBlock (s : List Char) :
    ∀ l : List RawMatch,
      (l.filterMap (rawToBlock s)).length =
        (l.filter (fun r => !(jsTrim r.content).isEmpty)).length := by
  intro l
  induction l with
  | nil => rfl
  | cons r rest ih =>
    cases hc : (jsTrim r.content).isEmpty <;>
      simp [List.filterMap_cons, List.filter_cons, rawToBlock, hc, ih]

theorem mem_collectMarkdownBlocks_code_ne_nil (s : List Char)
    (b : MermaidBlock) (h : b ∈ collectMarkdownBlocks s) : ¬(b.code = []) := by
  unfold collectMarkdownBlocks at h
  rw [List.mem_filterMap] at h
  obtain ⟨r, _, hr⟩ := h
  unfold rawToBlock at hr
  cases hE : (jsTrim r.content).isEmpty with
  | true => simp [hE] at hr
  | false =>
    simp only [hE, Bool.false_eq_true, if_false, Option.some.injEq] at hr
    subst hr
    simpa [List.isEmpty_iff] using hE

/-- C4: for markdown-kind documents the extractor is the fenced-block
scan; the fence pairs it finds are in document order of strictly
ascending start offset; it emits exactly one block per fence pair whose
trimmed content is non-empty (empty-bodied pairs are skipped, every
emitted block has non-empty code); and the text
`"```mermaid\nA-->B\n```"` yields exactly one block with code
`"A-->B"`, startLine 0, endLine 2. -/
theorem C4_markdown_extraction :
    (∀ d : TextDocument, ¬(d.languageId = "mermaid") →
        collectMermaidBlocks d = collectMarkdownBlocks d.text) ∧
    (∀ s : List Char,
        List.Pairwise (fun a b => a.openIdx < b.openIdx) (scanRaw s)) ∧
    (∀ s : List Char,
        (collectMarkdownBlocks s).length =
          ((scanRaw s).filter (fun r => !(jsTrim r.content).isEmpty)).length) ∧
    (∀ (s : List Char) (b : MermaidBlock),
        b ∈ collectMarkdownBlocks s → ¬(b.code = [])) ∧
    collectMermaidBlocks sampleMarkdown = [⟨"A-->B".toList, 0, 2⟩] := by
  refine ⟨?_, ?_, ?_, ?_, ?_⟩
  · intro d hd; simp [collectMermaidBlocks, hd]
  · intro s; exact scanRawAux_pairwise s (s.length + 1) 0
  · intro s; exact length_filterMap_rawToBlock s (scanRaw s)
  · exact mem_collectMarkdownBlocks_code_ne_nil
  · decide

/-- C4, witnessed at concrete inputs: the markdown-kind document
dispatches to the scan, and a block extracted from `sampleTwoBlocks` has
non-empty code. -/
theorem C4_markdown_extraction_witness :
    collectMermaidBlocks sampleMarkdown = collectMarkdownBlocks sampleMarkdown.text ∧
    ¬((⟨['A'], 0, 2⟩ : MermaidBlock).code = []) := by
  constructor
  · exact C4_markdown_extraction.1 sampleMarkdown (by decide)
  · exact C4_markdown_extraction.2.2.2.1 sampleTwoBlocks.text ⟨['A'], 0, 2⟩
      (by decide)

/-- C5: for a standalone-diagram (`mermaid`-language) document, a
non-whitespace text yields exactly one block holding the whole trimmed
text, from line 0 to the last line index; an empty-or-whitespace text
yields no block. -/
theorem C5_standalone_extraction (d : TextDocument)
    (h : d.languageId = "mermaid") :
    (¬(jsTrim d.text = []) →
        collectMermaidBlocks d = [⟨jsTrim d.text, 0, lineCount d.text - 1⟩]) ∧
    (jsTrim d.text = [] → collectMermaidBlocks d = []) := by
  constructor <;> intro h2 <;> simp [collectMermaidBlocks, h, List.isEmpty_iff, h2]

/-- C5 witness: both branches at concrete documents. -/
theorem C5_standalone_extraction_witness :
    collectMermaidBlocks sampleStandalone = [⟨"A-->B".toList, 0, 0⟩] ∧
    collectMermaidBlocks ⟨"file:///ws.mmd", 1, "mermaid", "  \n ".toList⟩ = [] := by
  constructor
  · exact ((C5_standalone_extraction sampleStandalone (by decide)).1 (by decide)).trans
      (by decide)
  · exact (C5_standalone_extraction ⟨"file:///ws.mmd", 1, "mermaid", "  \n ".toList⟩
      (by decide)).2 (by decide)

theorem listStartsWith_append (p t : List Char) :
    listStartsWith p (p ++ t) = true := by
  induction p with
  | nil => rfl
  | cons c cs ih => simp [listStartsWith, ih]

theorem findPat_of_startsWith {pat s : List Char}
    (h : listStartsWith pat s = true) : findPat pat s = some 0 := by
  cases s with
  | nil => simp [findPat, h]
  | cons c rest => simp [findPat, h]

/-- C9: extraction is total (it is a function into block lists), and an
opening fence that is never closed contributes no block: any text that
is an opening fence, its newline, and then content with no closing
`"```"` extracts to the empty list; and in a text with one complete
block followed by a dangling fence only the complete block is emitted. -/
theorem C9_unterminated_fence_no_block :
    (∀ (uri lang : String) (v : Nat) (c : List Char),
        ¬(lang = "mermaid") → findPat closeFence c = none →
        collectMermaidBlocks ⟨uri, v, lang, openFence ++ '\n' :: c⟩ = []) ∧
    collectMermaidBlocks ⟨"file:///dangling.md", 1, "markdown",
        "```mermaid\nA-->B\n```\n```mermaid\nC--".toList⟩ =
      [⟨"A-->B".toList, 0, 2⟩] := by
  constructor
  · intro uri lang v c hlang hc
    have htext : (openFence ++ '\n' :: c) = (openFence ++ ['\n']) ++ c := by
      simp
    simp only [collectMermaidBlocks, hlang, if_false, collectMarkdownBlocks,
      scanRaw]
    have hlen : (openFence ++ '\n' :: c).length = c.length + 11 := by
      simp [openFence]
    rw [hlen, scanRawAux]
    have hopen : findFrom openFence (openFence ++ '\n' :: c) 0 = some 0 := by
      unfold findFrom
      rw [List.drop_zero, findPat_of_startsWith (listStartsWith_append _ _)]
      rfl
    rw [hopen]
    have hdrop10 : (openFence ++ '\n' :: c).drop 10 = '\n' :: c := by
      have : openFence.length = 10 := by decide
      rw [← this, List.drop_left]
    have hskip : skipInlineWs (openFence ++ '\n' :: c) 10 = 10 := by
      unfold skipInlineWs
      rw [hdrop10]
      simp [List.takeWhile_cons, isInlineWhitespace, isJsWhitespace]
    have hnl : newlineAt (openFence ++ '\n' :: c) 10 = some 11 := by
      unfold newlineAt
      rw [hdrop10]
      rfl
    have hdrop11 : (openFence ++ '\n' :: c).drop 11 = c := by
      have h11 : (openFence ++ ['\n']).length = 11 := by decide
      rw [htext, ← h11, List.drop_left]
    have hclose : findFrom closeFence (openFence ++ '\n' :: c) 11 = none := by
      unfold findFrom
      rw [hdrop11, hc]
      rfl
    simp only [hskip, hnl, hclose]
    rfl
  · decide

/-- C9 witness: a markdown text that is one dangling fence with no
closing token extracts to no blocks. -/
theorem C9_unterminated_fence_no_block_witness :
    collectMermaidBlocks ⟨"file:///open.md", 1, "markdown",
        openFence ++ '\n' :: "flowchart LR".toList⟩ = [] :=
  C9_unterminated_fence_no_block.1 "file:///open.md" "markdown" 1
    "flowchart LR".toList (by decide) (by decide)

instance : Inhabited Panel := ⟨samplePanel⟩

theorem cacheGet_cacheSet (uri : String) (v : Nat) (r : BlockListRef) :
    ∀ c : BlockCache, cacheGet (cacheSet c uri v r) uri = some (v, r) := by
  intro c
  induction c with
  | nil => simp [cacheSet, cacheGet]
  | cons e rest ih =>
    by_cases he : e.1 = uri
    · simp [cacheSet, cacheGet, List.any_cons, he]
    · cases ha : rest.any (fun x => x.1 = uri) with
      | true =>
        have hset : cacheSet (e :: rest) uri v r =
            e :: rest.map (fun x => if x.1 = uri then (uri, v, r) else x) := by
          simp [cacheSet, List.any_cons, he, ha]
        have hset' : cacheSet rest uri v r =
            rest.map (fun x => if x.1 = uri then (uri, v, r) else x) := by
          simp [cacheSet, ha]
        rw [hset, ← hset']
        simpa [cacheGet, List.find?_cons, he] using ih
      | false =>
        have hset : cacheSet (e :: rest) uri v r =
            e :: (rest ++ [(uri, v, r)]) := by
          simp [cacheSet, List.any_cons, he, ha]
        have hset' : cacheSet rest uri v r = rest ++ [(uri, v, r)] := by
          simp [cacheSet, ha]
        rw [hset, ← hset']
        simpa [cacheGet, List.find?_cons, he] using ih

theorem getMermaidBlocks_cache_hit (p : Panel) (env : Env)
    (doc : TextDocument) (r : BlockListRef)
    (h : cacheGet p.blockCache doc.uri = some (doc.version, r)) :
    getMermaidBlocks p env doc = ⟨r, p, env⟩ := by
  unfold getMermaidBlocks
  rw [h]
  simp

theorem getMermaidBlocks_cache_miss (p : Panel) (env : Env)
    (doc : TextDocument) (h : cacheGet p.blockCache doc.uri = none) :
    getMermaidBlocks p env doc =
      ⟨⟨env.nextRefId, collectMermaidBlocks doc⟩,
        { p with blockCache := cacheSet p.blockCache doc.uri doc.version
                   ⟨env.nextRefId, collectMermaidBlocks doc⟩ },
        { env with nextRefId := env.nextRefId + 1,
                   extractorCalls := env.extractorCalls + 1 }⟩ := by
  unfold getMermaidBlocks
  rw [h]
  rfl

theorem getMermaidBlocks_cache_stale (p : Panel) (env : Env)
    (doc : TextDocument) (vr : Nat × BlockListRef)
    (hg : cacheGet p.blockCache doc.uri = some vr)
    (hv : ¬(vr.1 = doc.version)) :
    getMermaidBlocks p env doc =
      ⟨⟨env.nextRefId, collectMermaidBlocks doc⟩,
        { p with blockCache := cacheSet p.blockCache doc.uri doc.version
                   ⟨env.nextRefId, collectMermaidBlocks doc⟩ },
        { env with nextRefId := env.nextRefId + 1,
                   extractorCalls := env.extractorCalls + 1 }⟩ := by
  unfold getMermaidBlocks
  rw [hg]
  simp [hv]

theorem getMermaidBlocks_post (p : Panel) (env : Env) (doc : TextDocument) :
    cacheGet (getMermaidBlocks p env doc).panel.blockCache doc.uri =
      some (doc.version, (getMermaidBlocks p env doc).ref) := by
  cases hg : cacheGet p.blockCache doc.uri with
  | none => rw [getMermaidBlocks_cache_miss p env doc hg]; simp [cacheGet_cacheSet]
  | some vr =>
    obtain ⟨v1, r1⟩ := vr
    by_cases hv : v1 = doc.version
    · subst hv
      rw [getMermaidBlocks_cache_hit p env doc r1 hg]
      exact hg
    · rw [getMermaidBlocks_cache_stale p env doc (v1, r1) hg hv]
      simp [cacheGet_cacheSet]

theorem getMermaidBlocks_state (p : Panel) (env : Env) (doc : TextDocument) :
    (getMermaidBlocks p env doc).panel =
      { p with blockCache := (getMermaidBlocks p env doc).panel.blockCache } ∧
    (getMermaidBlocks p env doc).env =
      { env with nextRefId := (getMermaidBlocks p env doc).env.nextRefId,
                 extractorCalls :=
                   (getMermaidBlocks p env doc).env.extractorCalls } := by
  cases hg : cacheGet p.blockCache doc.uri with
  | none => rw [getMermaidBlocks_cache_miss p env doc hg]; exact ⟨rfl, rfl⟩
  | some vr =>
    obtain ⟨v1, r1⟩ := vr
    by_cases hv : v1 = doc.version
    · subst hv
      rw [getMermaidBlocks_cache_hit p env doc r1 hg]
      exact ⟨rfl, rfl⟩
    · rw [getMermaidBlocks_cache_stale p env doc (v1, r1) hg hv]
      exact ⟨rfl, rfl⟩

/-- C6: two consecutive `_getMermaidBlocks` calls on the same instance
for the same document URI and version return the identical (same
allocation) block list; the second call changes nothing and does not
invoke the extractor again. -/
theorem C6_block_cache_idempotent (p : Panel) (env : Env)
    (doc doc2 : TextDocument) (hu : doc2.uri = doc.uri)
    (hv : doc2.version = doc.version) :
    (getMermaidBlocks (getMermaidBlocks p env doc).panel
        (getMermaidBlocks p env doc).env doc2).ref =
      (getMermaidBlocks p env doc).ref ∧
    getMermaidBlocks (getMermaidBlocks p env doc).panel
        (getMermaidBlocks p env doc).env doc2 =
      ⟨(getMermaidBlocks p env doc).ref, (getMermaidBlocks p env doc).panel,
        (getMermaidBlocks p env doc).env⟩ ∧
    (getMermaidBlocks (getMermaidBlocks p env doc).panel
        (getMermaidBlocks p env doc).env doc2).env.extractorCalls =
      (getMermaidBlocks p env doc).env.extractorCalls := by
  have hhit : cacheGet (getMermaidBlocks p env doc).panel.blockCache doc2.uri =
      some (doc2.version, (getMermaidBlocks p env doc).ref) := by
    rw [hu, hv]; exact getMermaidBlocks_post p env doc
  have h2 := getMermaidBlocks_cache_hit (getMermaidBlocks p env doc).panel
    (getMermaidBlocks p env doc).env doc2 (getMermaidBlocks p env doc).ref hhit
  exact ⟨by rw [h2], h2, by rw [h2]⟩

/-- C6 witness: a concrete cold instance, queried twice for the same
document. -/
theorem C6_block_cache_idempotent_witness :
    (getMermaidBlocks (getMermaidBlocks samplePanel envInit sampleStandalone).panel
        (getMermaidBlocks samplePanel envInit sampleStandalone).env
        sampleStandalone).ref =
      (getMermaidBlocks samplePanel envInit sampleStandalone).ref ∧
    (getMermaidBlocks (getMermaidBlocks samplePanel envInit sampleStandalone).panel
        (getMermaidBlocks samplePanel envInit sampleStandalone).env
        sampleStandalone).env.extractorCalls =
      (getMermaidBlocks samplePanel envInit sampleStandalone).env.extractorCalls := by
  have h := C6_block_cache_idempotent samplePanel envInit sampleStandalone
    sampleStandalone rfl rfl
  exact ⟨h.1, h.2.2⟩

/-- C8 fails on the code: `_blockCache` is an instance field, not shared
state.  In a registry holding two live `all`-mode instances of the same
document (same URI, same version), `_getMermaidBlocks` on each instance
returns block lists with distinct allocation identities — not one shared
reference — and the extractor has run once per instance. -/
theorem C8_shared_cache_counterexample :
    ¬((getMermaidBlocks
          ((createOrShow (createOrShow worldInit sampleStandalone)
              sampleStandalone).panels[0]!)
          (createOrShow (createOrShow worldInit sampleStandalone)
              sampleStandalone).env sampleStandalone).ref.refId =
      (getMermaidBlocks
          ((createOrShow (createOrShow worldInit sampleStandalone)
              sampleStandalone).panels[1]!)
          (getMermaidBlocks
              ((createOrShow (createOrShow worldInit sampleStandalone)
                  sampleStandalone).panels[0]!)
              (createOrShow (createOrShow worldInit sampleStandalone)
                  sampleStandalone).env sampleStandalone).env
          sampleStandalone).ref.refId) ∧
    (createOrShow (createOrShow worldInit sampleStandalone)
        sampleStandalone).env.extractorCalls = 2 := by
  decide

/-- C8 amended: the Block Cache is per-instance.  Two instances whose
own caches are cold for a URI each run the extractor and obtain block
lists with distinct allocation identities, even for the same (URI,
version); reference stability holds only within one instance. -/
theorem C8_per_instance_cache (p1 p2 : Panel) (env : Env)
    (doc : TextDocument) (h1 : cacheGet p1.blockCache doc.uri = none)
    (h2 : cacheGet p2.blockCache doc.uri = none) :
    ¬((getMermaidBlocks p1 env doc).ref.refId =
        (getMermaidBlocks p2 (getMermaidBlocks p1 env doc).env doc).ref.refId) ∧
    (getMermaidBlocks p2 (getMermaidBlocks p1 env doc).env doc).env.extractorCalls =
      env.extractorCalls + 2 := by
  rw [getMermaidBlocks_cache_miss p1 env doc h1]
  rw [getMermaidBlocks_cache_miss p2 _ doc h2]
  simp

/-- C8 amended, witnessed at two concrete cold instances. -/
theorem C8_per_instance_cache_witness :
    ¬((getMermaidBlocks samplePanel envInit sampleStandalone).ref.refId =
        (getMermaidBlocks { samplePanel with panelId := 1 }
            (getMermaidBlocks samplePanel envInit sampleStandalone).env
            sampleStandalone).ref.refId) ∧
    (getMermaidBlocks { samplePanel with panelId := 1 }
        (getMermaidBlocks samplePanel envInit sampleStandalone).env
        sampleStandalone).env.extractorCalls = envInit.extractorCalls + 2 :=
  C8_per_instance_cache samplePanel { samplePanel with panelId := 1 }
    envInit sampleStandalone (by decide) (by decide)

section

variable (p : Panel) (env : Env) (doc : TextDocument)

theorem getMermaidBlocks_mode :
    (getMermaidBlocks p env doc).panel.mode = p.mode := by
  rw [(getMermaidBlocks_state p env doc).1]

theorem getMermaidBlocks_documentUri :
    (getMermaidBlocks p env doc).panel.documentUri = p.documentUri := by
  rw [(getMermaidBlocks_state p env doc).1]

theorem getMermaidBlocks_panelId :
    (getMermaidBlocks p env doc).panel.panelId = p.panelId := by
  rw [(getMermaidBlocks_state p env doc).1]

theorem getMermaidBlocks_isDisposed :
    (getMermaidBlocks p env doc).panel.isDisposed = p.isDisposed := by
  rw [(getMermaidBlocks_state p env doc).1]

theorem getMermaidBlocks_currentDocument :
    (getMermaidBlocks p env doc).panel.currentDocument = p.currentDocument := by
  rw [(getMermaidBlocks_state p env doc).1]

theorem getMermaidBlocks_singleLine :
    (getMermaidBlocks p env doc).panel.singleLine = p.singleLine := by
  rw [(getMermaidBlocks_state p env doc).1]

theorem getMermaidBlocks_singleBlockIndex :
    (getMermaidBlocks p env doc).panel.singleBlockIndex = p.singleBlockIndex := by
  rw [(getMermaidBlocks_state p env doc).1]

theorem getMermaidBlocks_singleBlockStartLine :
    (getMermaidBlocks p env doc).panel.singleBlockStartLine =
      p.singleBlockStartLine := by
  rw [(getMermaidBlocks_state p env doc).1]

theorem getMermaidBlocks_singleBlockEndLine :
    (getMermaidBlocks p env doc).panel.singleBlockEndLine =
      p.singleBlockEndLine := by
  rw [(getMermaidBlocks_state p env doc).1]

theorem getMermaidBlocks_rendered :
    (getMermaidBlocks p env doc).panel.rendered = p.rendered := by
  rw [(getMermaidBlocks_state p env doc).1]

theorem getMermaidBlocks_firstUpdateRequestTime :
    (getMermaidBlocks p env doc).panel.firstUpdateRequestTime =
      p.firstUpdateRequestTime := by
  rw [(getMermaidBlocks_state p env doc).1]

theorem getMermaidBlocks_updateTimeoutId :
    (getMermaidBlocks p env doc).panel.updateTimeoutId = p.updateTimeoutId := by
  rw [(getMermaidBlocks_state p env doc).1]

theorem getMermaidBlocks_timers :
    (getMermaidBlocks p env doc).env.timers = env.timers := by
  rw [(getMermaidBlocks_state p env doc).2]

theorem getMermaidBlocks_nextTimerId :
    (getMermaidBlocks p env doc).env.nextTimerId = env.nextTimerId := by
  rw [(getMermaidBlocks_state p env doc).2]

end

theorem findBlockIndexForLine_lt {blocks : List MermaidBlock} {line i : Nat}
    (h : findBlockIndexForLine blocks line = some i) : i < blocks.length := by
  unfold findBlockIndexForLine at h
  rw [List.findIdx?_eq_some_iff_findIdx_eq] at h
  exact h.1

theorem renderSingle_assigned (p : Panel) (env : Env) (doc : TextDocument)
    (l : Nat) (bs : List MermaidBlock) (i : Nat) (b : MermaidBlock)
    (hcd : p.currentDocument = some doc)
    (hidx : p.singleBlockIndex = some i) (hb : bs[i]? = some b) :
    renderSingle p env (some l) (some bs) =
      ⟨{ p with singleLine := some l,
                singleBlockStartLine := some b.startLine,
                singleBlockEndLine := some b.endLine,
                rendered := p.rendered + 1 }, env⟩ := by
  unfold renderSingle
  rw [hcd]
  simp only [hidx, Option.some_bind, hb]
  rw [hcd]

theorem handleSelectionChange_eq (p : Panel) (env : Env)
    (doc : TextDocument) (line : Nat) (hm : p.mode = PreviewMode.single)
    (hu : doc.uri = p.documentUri) :
    handleSelectionChange p env doc line =
      match findBlockIndexForLine
          (getMermaidBlocks { p with currentDocument := some doc } env doc).ref.blocks
          line with
      | none =>
        ⟨(getMermaidBlocks { p with currentDocument := some doc } env doc).panel,
          (getMermaidBlocks { p with currentDocument := some doc } env doc).env⟩
      | some i =>
        match (getMermaidBlocks { p with currentDocument := some doc } env
            doc).panel.singleBlockIndex with
        | some j =>
          if ¬(i = j) then
            ⟨(getMermaidBlocks { p with currentDocument := some doc } env doc).panel,
              (getMermaidBlocks { p with currentDocument := some doc } env doc).env⟩
          else
            ⟨{ (getMermaidBlocks { p with currentDocument := some doc } env
                  doc).panel with singleLine := some line },
              (getMermaidBlocks { p with currentDocument := some doc } env doc).env⟩
        | none =>
          renderSingle
            { (getMermaidBlocks { p with currentDocument := some doc } env
                doc).panel with
              singleLine := some line, singleBlockIndex := some i }
            (getMermaidBlocks { p with currentDocument := some doc } env doc).env
            (some line)
            (some (getMermaidBlocks { p with currentDocument := some doc } env
                doc).ref.blocks) := by
  unfold handleSelectionChange
  simp only [hm, hu, not_true_eq_false, if_false, Bool.false_eq_true]

/-- C2: the sticky-focus policy of `handleSelectionChange` on a
`single`-mode instance with a matching document.  (a) With no focus
assigned, an event inside block `i` adopts `i`, stores the line, and
renders once.  (b) With focus `j` assigned, an event inside a different
block `i ≠ j` changes none of the focus state and does not render.
(c) An event inside the focused block updates only the stored line. -/
theorem C2_sticky_selection (p : Panel) (env : Env) (doc : TextDocument)
    (line : Nat) (hm : p.mode = PreviewMode.single)
    (hu : doc.uri = p.documentUri) :
    (∀ i, p.singleBlockIndex = none →
      findBlockIndexForLine
          (getMermaidBlocks { p with currentDocument := some doc } env doc).ref.blocks
          line = some i →
      (handleSelectionChange p env doc line).panel.singleBlockIndex = some i ∧
      (handleSelectionChange p env doc line).panel.singleLine = some line ∧
      (handleSelectionChange p env doc line).panel.rendered = p.rendered + 1) ∧
    (∀ i j, p.singleBlockIndex = some j →
      findBlockIndexForLine
          (getMermaidBlocks { p with currentDocument := some doc } env doc).ref.blocks
          line = some i → ¬(i = j) →
      (handleSelectionChange p env doc line).panel.singleLine = p.singleLine ∧
      (handleSelectionChange p env doc line).panel.singleBlockIndex = some j ∧
      (handleSelectionChange p env doc line).panel.singleBlockStartLine =
        p.singleBlockStartLine ∧
      (handleSelectionChange p env doc line).panel.singleBlockEndLine =
        p.singleBlockEndLine ∧
      (handleSelectionChange p env doc line).panel.rendered = p.rendered) ∧
    (∀ j, p.singleBlockIndex = some j →
      findBlockIndexForLine
          (getMermaidBlocks { p with currentDocument := some doc } env doc).ref.blocks
          line = some j →
      (handleSelectionChange p env doc line).panel.singleLine = some line ∧
      (handleSelectionChange p env doc line).panel.singleBlockIndex = some j ∧
      (handleSelectionChange p env doc line).panel.singleBlockStartLine =
        p.singleBlockStartLine ∧
      (handleSelectionChange p env doc line).panel.singleBlockEndLine =
        p.singleBlockEndLine ∧
      (handleSelectionChange p env doc line).panel.rendered = p.rendered) := by
  rw [handleSelectionChange_eq p env doc line hm hu]
  have hsbi := getMermaidBlocks_singleBlockIndex
    { p with currentDocument := some doc } env doc
  have hsl := getMermaidBlocks_singleLine
    { p with currentDocument := some doc } env doc
  have hssl := getMermaidBlocks_singleBlockStartLine
    { p with currentDocument := some doc } env doc
  have hsse := getMermaidBlocks_singleBlockEndLine
    { p with currentDocument := some doc } env doc
  have hrend := getMermaidBlocks_rendered
    { p with currentDocument := some doc } env doc
  have hcd := getMermaidBlocks_currentDocument
    { p with currentDocument := some doc } env doc
  revert hsbi hsl hssl hsse hrend hcd
  generalize getMermaidBlocks { p with currentDocument := some doc } env doc = G
  intro hsbi hsl hssl hsse hrend hcd
  refine ⟨?_, ?_, ?_⟩
  · intro i hnone hfind
    have hsbi' : G.panel.singleBlockIndex = none := by rw [hsbi]; exact hnone
    simp only [hfind, hsbi']
    have hlt := findBlockIndexForLine_lt hfind
    have hb : G.ref.blocks[i]? = some G.ref.blocks[i] :=
      List.getElem?_eq_getElem hlt
    have hcd' : ({ G.panel with singleLine := some line, singleBlockIndex := some i } : Panel).currentDocument = some doc := hcd
    have hrw := renderSingle_assigned
      { G.panel with singleLine := some line, singleBlockIndex := some i }
      G.env doc line G.ref.blocks i (G.ref.blocks.get ⟨i, hlt⟩) hcd' rfl hb
    rw [hrw]
    refine ⟨rfl, rfl, ?_⟩
    show G.panel.rendered + 1 = p.rendered + 1
    rw [hrend]
  · intro i j hsome hfind hne
    have hsbi' : G.panel.singleBlockIndex = some j := by rw [hsbi]; exact hsome
    simp only [hfind, hsbi']
    rw [if_pos hne]
    exact ⟨hsl, hsbi', hssl, hsse, hrend⟩
  · intro j hsome hfind
    have hsbi' : G.panel.singleBlockIndex = some j := by rw [hsbi]; exact hsome
    simp only [hfind, hsbi', not_true, if_false]
    exact ⟨trivial, trivial, hssl, hsse, hrend⟩

/-- C2 witness: on the two-block document, (a) a fresh instance adopts
block 0 from line 1 and renders; (b) with focus 0, a move to line 5
(block 1) is ignored; (c) with focus 0, a move to line 2 (still block 0)
updates only the stored line. -/
theorem C2_sticky_selection_witness :
    ((handleSelectionChange singlePanelUnassigned envInit sampleTwoBlocks
        1).panel.singleBlockIndex = some 0 ∧
      (handleSelectionChange singlePanelUnassigned envInit sampleTwoBlocks
        1).panel.singleLine = some 1 ∧
      (handleSelectionChange singlePanelUnassigned envInit sampleTwoBlocks
        1).panel.rendered = singlePanelUnassigned.rendered + 1) ∧
    ((handleSelectionChange singlePanelAssigned envInit sampleTwoBlocks
        5).panel.singleLine = singlePanelAssigned.singleLine ∧
      (handleSelectionChange singlePanelAssigned envInit sampleTwoBlocks
        5).panel.rendered = singlePanelAssigned.rendered) ∧
    ((handleSelectionChange singlePanelAssigned envInit sampleTwoBlocks
        2).panel.singleLine = some 2 ∧
      (handleSelectionChange singlePanelAssigned envInit sampleTwoBlocks
        2).panel.singleBlockIndex = some 0) := by
  have ha := (C2_sticky_selection singlePanelUnassigned envInit sampleTwoBlocks 1
    (by decide) (by decide)).1 0 (by decide) (by decide)
  have hb := (C2_sticky_selection singlePanelAssigned envInit sampleTwoBlocks 5
    (by decide) (by decide)).2.1 1 0 (by decide) (by decide) (by decide)
  have hc := (C2_sticky_selection singlePanelAssigned envInit sampleTwoBlocks 2
    (by decide) (by decide)).2.2 0 (by decide) (by decide)
  exact ⟨⟨ha.1, ha.2.1, ha.2.2⟩, ⟨hb.1, hb.2.2.2.2⟩, ⟨hc.1, hc.2.1⟩⟩

/-- C10: on a `single`-mode instance with a matching document, a
selection-change event whose line lies in no extracted block leaves the
focus state (`singleLine`, `singleBlockIndex`, the cached range)
unchanged, renders nothing, leaves the pending timers alone, and only
records the current document (and the refreshed cache entry). -/
theorem C10_selection_outside_blocks (p : Panel) (env : Env)
    (doc : TextDocument) (line : Nat) (hm : p.mode = PreviewMode.single)
    (hu : doc.uri = p.documentUri)
    (hnone : findBlockIndexForLine
        (getMermaidBlocks { p with currentDocument := some doc } env doc).ref.blocks
        line = none) :
    handleSelectionChange p env doc line =
      ⟨(getMermaidBlocks { p with currentDocument := some doc } env doc).panel,
        (getMermaidBlocks { p with currentDocument := some doc } env doc).env⟩ ∧
    (handleSelectionChange p env doc line).panel.singleLine = p.singleLine ∧
    (handleSelectionChange p env doc line).panel.singleBlockIndex =
      p.singleBlockIndex ∧
    (handleSelectionChange p env doc line).panel.singleBlockStartLine =
      p.singleBlockStartLine ∧
    (handleSelectionChange p env doc line).panel.singleBlockEndLine =
      p.singleBlockEndLine ∧
    (handleSelectionChange p env doc line).panel.rendered = p.rendered ∧
    (handleSelectionChange p env doc line).panel.currentDocument = some doc ∧
    (handleSelectionChange p env doc line).env.timers = env.timers := by
  rw [handleSelectionChange_eq p env doc line hm hu]
  rw [hnone]
  refine ⟨rfl, ?_, ?_, ?_, ?_, ?_, ?_, ?_⟩ <;>
    simp [getMermaidBlocks_singleLine, getMermaidBlocks_singleBlockIndex,
      getMermaidBlocks_singleBlockStartLine, getMermaidBlocks_singleBlockEndLine,
      getMermaidBlocks_rendered, getMermaidBlocks_currentDocument,
      getMermaidBlocks_timers]

/-- C10 witness: line 3 of the two-block document lies between the
blocks; the focused state survives untouched and nothing renders. -/
theorem C10_selection_outside_blocks_witness :
    (handleSelectionChange singlePanelAssigned envInit sampleTwoBlocks
      3).panel.singleLine = singlePanelAssigned.singleLine ∧
    (handleSelectionChange singlePanelAssigned envInit sampleTwoBlocks
      3).panel.singleBlockIndex = singlePanelAssigned.singleBlockIndex ∧
    (handleSelectionChange singlePanelAssigned envInit sampleTwoBlocks
      3).panel.rendered = singlePanelAssigned.rendered ∧
    (handleSelectionChange singlePanelAssigned envInit sampleTwoBlocks
      3).panel.currentDocument = some sampleTwoBlocks := by
  have h := C10_selection_outside_blocks singlePanelAssigned envInit
    sampleTwoBlocks 3 (by decide) (by decide) (by decide)
  exact ⟨h.2.1, h.2.2.1, h.2.2.2.2.2.1, h.2.2.2.2.2.2.1⟩

theorem renderAll_rendered (p : Panel) (env : Env) :
    (renderAll p env).panel.rendered = p.rendered + 1 := by
  unfold renderAll
  split
  · rfl
  · simp [getMermaidBlocks_rendered]

theorem renderSingle_rendered (p : Panel) (env : Env) (ln : Option Nat)
    (pre : Option (List MermaidBlock)) :
    (renderSingle p env ln pre).panel.rendered = p.rendered + 1 := by
  unfold renderSingle
  split
  · rfl
  · cases pre <;> simp only <;>
      repeat (first | rfl | simp [getMermaidBlocks_rendered] | split)

theorem renderAll_timers (p : Panel) (env : Env) :
    (renderAll p env).env.timers = env.timers := by
  unfold renderAll
  split
  · rfl
  · simp [getMermaidBlocks_timers]

theorem renderSingle_timers (p : Panel) (env : Env) (ln : Option Nat)
    (pre : Option (List MermaidBlock)) :
    (renderSingle p env ln pre).env.timers = env.timers := by
  unfold renderSingle
  split
  · rfl
  · cases pre <;> simp only <;>
      repeat (first | rfl | simp [getMermaidBlocks_timers] | split)

theorem renderAll_nextTimerId (p : Panel) (env : Env) :
    (renderAll p env).env.nextTimerId = env.nextTimerId := by
  unfold renderAll
  split
  · rfl
  · simp [getMermaidBlocks_nextTimerId]

theorem renderSingle_nextTimerId (p : Panel) (env : Env) (ln : Option Nat)
    (pre : Option (List MermaidBlock)) :
    (renderSingle p env ln pre).env.nextTimerId = env.nextTimerId := by
  unfold renderSingle
  split
  · rfl
  · cases pre <;> simp only <;>
      repeat (first | rfl | simp [getMermaidBlocks_nextTimerId] | split)

theorem renderAll_updateTimeoutId (p : Panel) (env : Env) :
    (renderAll p env).panel.updateTimeoutId = p.updateTimeoutId := by
  unfold renderAll
  split
  · rfl
  · simp [getMermaidBlocks_updateTimeoutId]

theorem renderSingle_updateTimeoutId (p : Panel) (env : Env) (ln : Option Nat)
    (pre : Option (List MermaidBlock)) :
    (renderSingle p env ln pre).panel.updateTimeoutId = p.updateTimeoutId := by
  unfold renderSingle
  split
  · rfl
  · cases pre <;> simp only <;>
      repeat (first | rfl | simp [getMermaidBlocks_updateTimeoutId] | split)

theorem renderAll_firstUpdateRequestTime (p : Panel) (env : Env) :
    (renderAll p env).panel.firstUpdateRequestTime =
      p.firstUpdateRequestTime := by
  unfold renderAll
  split
  · rfl
  · simp [getMermaidBlocks_firstUpdateRequestTime]

theorem renderSingle_firstUpdateRequestTime (p : Panel) (env : Env)
    (ln : Option Nat) (pre : Option (List MermaidBlock)) :
    (renderSingle p env ln pre).panel.firstUpdateRequestTime =
      p.firstUpdateRequestTime := by
  unfold renderSingle
  split
  · rfl
  · cases pre <;> simp only <;>
      repeat (first | rfl | simp [getMermaidBlocks_firstUpdateRequestTime] | split)

theorem render_of_disposed (p : Panel) (env : Env)
    (h : p.isDisposed = true) : render p env = ⟨p, env⟩ := by
  unfold render
  rw [if_pos h]

theorem render_rendered_succ (p : Panel) (env : Env)
    (hd : p.isDisposed = false) :
    (render p env).panel.rendered = p.rendered + 1 := by
  unfold render
  rw [if_neg (by simp [hd])]
  split
  · exact renderSingle_rendered _ _ _ _
  · exact renderAll_rendered _ _

theorem render_timers (p : Panel) (env : Env) :
    (render p env).env.timers = env.timers := by
  unfold render
  split
  · rfl
  · split
    · exact renderSingle_timers _ _ _ _
    · exact renderAll_timers _ _

theorem render_nextTimerId (p : Panel) (env : Env) :
    (render p env).env.nextTimerId = env.nextTimerId := by
  unfold render
  split
  · rfl
  · split
    · exact renderSingle_nextTimerId _ _ _ _
    · exact renderAll_nextTimerId _ _

theorem render_updateTimeoutId (p : Panel) (env : Env) :
    (render p env).panel.updateTimeoutId = p.updateTimeoutId := by
  unfold render
  split
  · rfl
  · split
    · exact renderSingle_updateTimeoutId _ _ _ _
    · exact renderAll_updateTimeoutId _ _

theorem render_firstUpdateRequestTime (p : Panel) (env : Env) :
    (render p env).panel.firstUpdateRequestTime = p.firstUpdateRequestTime := by
  unfold render
  split
  · rfl
  · split
    · exact renderSingle_firstUpdateRequestTime _ _ _ _
    · exact renderAll_firstUpdateRequestTime _ _

theorem render_rendered_mono (p : Panel) (env : Env) :
    p.rendered ≤ (render p env).panel.rendered := by
  cases hd : p.isDisposed with
  | false => rw [render_rendered_succ p env hd]; exact Nat.le_succ _
  | true => rw [render_of_disposed p env hd]

theorem updateContent_of_disposed (p : Panel) (env : Env)
    (doc : TextDocument) (now delay : Nat) (h : p.isDisposed = true) :
    updateContent p env doc now delay = ⟨p, env⟩ := by
  unfold updateContent
  rw [if_pos h]

theorem updateContent_of_other_uri (p : Panel) (env : Env)
    (doc : TextDocument) (now delay : Nat) (hd : p.isDisposed = false)
    (h : ¬(doc.uri = p.documentUri)) :
    updateContent p env doc now delay = ⟨p, env⟩ := by
  unfold updateContent
  rw [if_neg (by simp [hd]), if_pos h]

theorem updateContent_forced (p : Panel) (env : Env) (doc : TextDocument)
    (now delay t0 : Nat) (hd : p.isDisposed = false)
    (hu : doc.uri = p.documentUri)
    (hfirst : p.firstUpdateRequestTime = some t0) (ht0 : ¬(t0 = 0))
    (helap : maxDebounceTime ≤ now - t0) :
    updateContent p env doc now delay =
      render
        { p with currentDocument := some doc, firstUpdateRequestTime := none }
        (jsClearTimeout env p.updateTimeoutId) := by
  unfold updateContent
  rw [if_neg (by simp [hd]), if_neg (by simp [hu])]
  simp only [hfirst, Option.getD_some, if_neg ht0]
  rw [if_pos helap]

theorem updateContent_debounce (p : Panel) (env : Env) (doc : TextDocument)
    (now delay t0 : Nat) (hd : p.isDisposed = false)
    (hu : doc.uri = p.documentUri)
    (hfirst : p.firstUpdateRequestTime = some t0) (ht0 : ¬(t0 = 0))
    (helap : ¬(maxDebounceTime ≤ now - t0)) :
    updateContent p env doc now delay =
      ⟨{ p with currentDocument := some doc,
                firstUpdateRequestTime := some t0,
                updateTimeoutId := some env.nextTimerId },
        { env with
            timers := (jsClearTimeout env p.updateTimeoutId).timers ++
              [(env.nextTimerId, now + delay)],
            nextTimerId := env.nextTimerId + 1 }⟩ := by
  unfold updateContent
  rw [if_neg (by simp [hd]), if_neg (by simp [hu])]
  simp only [hfirst, Option.getD_some, if_neg ht0]
  rw [if_neg helap]
  cases p.updateTimeoutId <;> rfl

theorem updateContent_first_event (p : Panel) (env : Env)
    (doc : TextDocument) (now delay : Nat) (hd : p.isDisposed = false)
    (hu : doc.uri = p.documentUri)
    (hfirst : p.firstUpdateRequestTime.getD 0 = 0) :
    updateContent p env doc now delay =
      ⟨{ p with currentDocument := some doc,
                firstUpdateRequestTime := some now,
                updateTimeoutId := some env.nextTimerId },
        { env with
            timers := (jsClearTimeout env p.updateTimeoutId).timers ++
              [(env.nextTimerId, now + delay)],
            nextTimerId := env.nextTimerId + 1 }⟩ := by
  unfold updateContent
  rw [if_neg (by simp [hd]), if_neg (by simp [hu])]
  simp only [hfirst, eq_self_iff_true, if_true]
  rw [if_neg (by simp [maxDebounceTime])]
  cases p.updateTimeoutId <;> rfl

theorem jsClearTimeout_of_inv (p : Panel) (env : Env)
    (hinv : TimerInv p env) :
    (jsClearTimeout env p.updateTimeoutId).timers = [] := by
  cases hf : p.updateTimeoutId with
  | none =>
    have hnil : env.timers = [] := by
      cases henv : env.timers with
      | nil => rfl
      | cons e es =>
        exfalso
        have := (hinv.2 e (by rw [henv]; exact List.mem_cons_self e es)).1
        rw [hf] at this
        exact Option.noConfusion this
    simpa [jsClearTimeout] using hnil
  | some tid =>
    simp only [jsClearTimeout]
    rw [List.filter_eq_nil_iff]
    intro e he
    have := (hinv.2 e he).1
    rw [hf] at this
    simp only [Option.some.injEq] at this
    simp [this]

theorem jsClearTimeout_of_empty (env : Env) (tid : Option Nat)
    (h : env.timers = []) : (jsClearTimeout env tid).timers = [] := by
  cases tid <;> simp [jsClearTimeout, h]

theorem fireTimer_rendered_mono (p : Panel) (env : Env) (tid : Nat) :
    p.rendered ≤ (fireTimer p env tid).panel.rendered := by
  unfold fireTimer
  split
  · exact render_rendered_mono { p with firstUpdateRequestTime := none } _
  · exact Nat.le_refl _

theorem foldl_fireTimer_rendered_mono :
    ∀ (tids : List Nat) (pe : PanelEnv),
      pe.panel.rendered ≤
        (tids.foldl (fun pe tid => fireTimer pe.panel pe.env tid)
          pe).panel.rendered := by
  intro tids
  induction tids with
  | nil => intro pe; exact Nat.le_refl _
  | cons t ts ih =>
    intro pe
    simp only [List.foldl_cons]
    exact Nat.le_trans (fireTimer_rendered_mono pe.panel pe.env t) (ih _)

theorem fireDue_rendered_mono (p : Panel) (env : Env) (now : Nat) :
    p.rendered ≤ (fireDue p env now).panel.rendered := by
  unfold fireDue
  exact foldl_fireTimer_rendered_mono _ ⟨p, env⟩

theorem firstUpdate_of_getD_succ (p : Panel) (t0' : Nat)
    (h : p.firstUpdateRequestTime.getD 0 = t0' + 1) :
    p.firstUpdateRequestTime = some (t0' + 1) := by
  cases hft : p.firstUpdateRequestTime with
  | none => rw [hft] at h; simp at h
  | some v => rw [hft] at h; simp at h; rw [h]

theorem updateContent_rendered_mono (p : Panel) (env : Env)
    (doc : TextDocument) (now delay : Nat) :
    p.rendered ≤ (updateContent p env doc now delay).panel.rendered := by
  cases hd : p.isDisposed with
  | true => rw [updateContent_of_disposed p env doc now delay hd]
  | false =>
    by_cases hu : doc.uri = p.documentUri
    · cases hfv : p.firstUpdateRequestTime.getD 0 with
      | zero =>
        rw [updateContent_first_event p env doc now delay hd hu hfv]
      | succ t0' =>
        have hsome := firstUpdate_of_getD_succ p t0' hfv
        by_cases hforce : maxDebounceTime ≤ now - (t0' + 1)
        · rw [updateContent_forced p env doc now delay (t0' + 1) hd hu hsome
            (by omega) hforce]
          exact render_rendered_mono { p with currentDocument := some doc, firstUpdateRequestTime := none } _
        · rw [updateContent_debounce p env doc now delay (t0' + 1) hd hu hsome
            (by omega) hforce]
    · rw [updateContent_of_other_uri p env doc now delay hd hu]

theorem changeEventStep_rendered_mono (doc : TextDocument) (delay : Nat)
    (pe : PanelEnv) (t : Nat) :
    pe.panel.rendered ≤ (changeEventStep doc delay pe t).panel.rendered := by
  unfold changeEventStep
  exact Nat.le_trans (fireDue_rendered_mono _ _ _)
    (updateContent_rendered_mono _ _ _ _ _)

theorem processEvents_rendered_mono (doc : TextDocument) (delay : Nat) :
    ∀ (ts : List Nat) (pe : PanelEnv),
      pe.panel.rendered ≤ (processEvents doc delay pe ts).panel.rendered := by
  intro ts
  induction ts with
  | nil => intro pe; exact Nat.le_refl _
  | cons t ts ih =>
    intro pe
    simp only [processEvents, List.foldl_cons]
    refine Nat.le_trans (changeEventStep_rendered_mono doc delay pe t) ?_
    have h := ih (changeEventStep doc delay pe t)
    simpa [processEvents] using h

theorem fireDue_of_empty (p : Panel) (env : Env) (now : Nat)
    (h : env.timers = []) : fireDue p env now = ⟨p, env⟩ := by
  unfold fireDue
  rw [h]
  rfl

theorem fireDue_of_not_due (p : Panel) (env : Env) (now : Nat)
    (h : ∀ e ∈ env.timers, ¬(e.2 ≤ now)) : fireDue p env now = ⟨p, env⟩ := by
  unfold fireDue
  have hnil : env.timers.filter (fun e => decide (e.2 ≤ now)) = [] := by
    rw [List.filter_eq_nil_iff]
    intro e he
    simpa using h e he
  rw [hnil]
  rfl

theorem updateContent_stream_aux (doc : TextDocument) (delay : Nat) :
    ∀ (rest : List Nat) (p : Panel) (env : Env) (t0 tprev tid : Nat),
      p.isDisposed = false → doc.uri = p.documentUri →
      1 ≤ t0 → t0 ≤ tprev →
      p.firstUpdateRequestTime = some t0 →
      p.updateTimeoutId = some tid →
      env.timers = [(tid, tprev + delay)] →
      List.Chain (fun a b => a < b ∧ b - a < delay) tprev rest →
      (∃ u ∈ rest, maxDebounceTime ≤ u - t0) →
      p.rendered < (processEvents doc delay ⟨p, env⟩ rest).panel.rendered := by
  intro rest
  induction rest with
  | nil =>
    intro p env t0 tprev tid _ _ _ _ _ _ _ _ hex
    obtain ⟨u, hu, _⟩ := hex
    exact absurd hu (List.not_mem_nil u)
  | cons u us ih =>
    intro p env t0 tprev tid hd hu h1 hprev hfirst hfield htimers hchain hex
    obtain ⟨⟨hlt, hgap⟩, hchain'⟩ := List.chain_cons.mp hchain
    have hnotdue : ∀ e ∈ env.timers, ¬(e.2 ≤ u) := by
      intro e he
      rw [htimers] at he
      simp only [List.mem_singleton] at he
      subst he
      simp only
      omega
    have hfd : fireDue p env u = ⟨p, env⟩ := fireDue_of_not_due p env u hnotdue
    simp only [processEvents, List.foldl_cons]
    have hstep : changeEventStep doc delay ⟨p, env⟩ u =
        updateContent p env doc u delay := by
      unfold changeEventStep
      rw [hfd]
    rw [hstep]
    by_cases hforce : maxDebounceTime ≤ u - t0
    · have huc := updateContent_forced p env doc u delay t0 hd hu hfirst
        (by omega) hforce
      have hrend : (updateContent p env doc u delay).panel.rendered =
          p.rendered + 1 := by
        rw [huc]
        exact render_rendered_succ _ _ hd
      have hmono := processEvents_rendered_mono doc delay us
        (updateContent p env doc u delay)
      simp only [processEvents] at hmono
      omega
    · have ht0 : ¬(t0 = 0) := by omega
      have huc := updateContent_debounce p env doc u delay t0 hd hu hfirst
        ht0 hforce
      rw [huc]
      have hcl : (jsClearTimeout env p.updateTimeoutId).timers = [] := by
        rw [hfield]
        simp only [jsClearTimeout]
        rw [htimers]
        simp
      have hta : (jsClearTimeout env p.updateTimeoutId).timers ++
          [(env.nextTimerId, u + delay)] = [(env.nextTimerId, u + delay)] := by
        rw [hcl]
        rfl
      have hex' : ∃ v ∈ us, maxDebounceTime ≤ v - t0 := by
        obtain ⟨v, hv, hv3⟩ := hex
        rcases List.mem_cons.mp hv with rfl | hv'
        · exact absurd hv3 hforce
        · exact ⟨v, hv', hv3⟩
      exact ih
        { p with currentDocument := some doc,
                 firstUpdateRequestTime := some t0,
                 updateTimeoutId := some env.nextTimerId }
        { env with
            timers := (jsClearTimeout env p.updateTimeoutId).timers ++
              [(env.nextTimerId, u + delay)],
            nextTimerId := env.nextTimerId + 1 }
        t0 u env.nextTimerId hd hu h1 (by omega) rfl rfl hta hchain' hex'

/-- C3: the debounced update scheduler of `updateContent`.
(a) Each live, matching call preserves the one-pending-timer discipline
and cancels every previously pending timer before arming a new one.
(b) When the elapsed time since the burst start reaches the fixed
ceiling (`maxDebounceTime` = 3000 ms, independent of the delay), the
call renders immediately, resets the burst-start timestamp, and arms no
new timer.  (c) A stream of change events each spaced below the
debounce delay, sustained past the ceiling, triggers at least one
render before the stream ends. -/
theorem C3_debounce_scheduler :
    (∀ (p : Panel) (env : Env) (doc : TextDocument) (now delay : Nat),
      p.isDisposed = false → doc.uri = p.documentUri → TimerInv p env →
      TimerInv (updateContent p env doc now delay).panel
        (updateContent p env doc now delay).env ∧
      ∀ e ∈ env.timers, e ∉ (updateContent p env doc now delay).env.timers) ∧
    (∀ (p : Panel) (env : Env) (doc : TextDocument) (now delay t0 : Nat),
      p.isDisposed = false → doc.uri = p.documentUri →
      p.firstUpdateRequestTime = some t0 → ¬(t0 = 0) →
      maxDebounceTime ≤ now - t0 →
      (updateContent p env doc now delay).panel.rendered = p.rendered + 1 ∧
      (updateContent p env doc now delay).panel.firstUpdateRequestTime =
        none ∧
      (updateContent p env doc now delay).env.timers =
        (jsClearTimeout env p.updateTimeoutId).timers ∧
      (updateContent p env doc now delay).env.nextTimerId =
        env.nextTimerId) ∧
    (∀ (p : Panel) (env : Env) (doc : TextDocument) (delay t : Nat)
        (rest : List Nat),
      p.isDisposed = false → doc.uri = p.documentUri →
      p.firstUpdateRequestTime = none → env.timers = [] → 1 ≤ t →
      List.Chain (fun a b => a < b ∧ b - a < delay) t rest →
      (∃ u ∈ rest, maxDebounceTime ≤ u - t) →
      p.rendered <
        (processEvents doc delay ⟨p, env⟩ (t :: rest)).panel.rendered) := by
  refine ⟨?_, ?_, ?_⟩
  · intro p env doc now delay hd hu hinv
    have hclear := jsClearTimeout_of_inv p env hinv
    have hfresh : ∀ e ∈ env.timers, e.1 < env.nextTimerId :=
      fun e he => (hinv.2 e he).2
    cases hfv : p.firstUpdateRequestTime.getD 0 with
    | zero =>
      rw [updateContent_first_event p env doc now delay hd hu hfv]
      constructor
      · refine ⟨by rw [hclear]; simp, ?_⟩
        intro e he
        rw [hclear] at he
        simp only [List.nil_append, List.mem_singleton] at he
        subst he
        exact ⟨rfl, Nat.lt_succ_self _⟩
      · intro e he
        rw [hclear]
        simp only [List.nil_append, List.mem_singleton]
        intro hcontra
        have := hfresh e he
        rw [hcontra] at this
        simp at this
    | succ t0' =>
      have hsome : p.firstUpdateRequestTime = some (t0' + 1) := by
        cases hft : p.firstUpdateRequestTime with
        | none => rw [hft] at hfv; simp at hfv
        | some v => rw [hft] at hfv; simp at hfv; rw [hfv]
      by_cases hforce : maxDebounceTime ≤ now - (t0' + 1)
      · rw [updateContent_forced p env doc now delay (t0' + 1) hd hu hsome
          (by omega) hforce]
        constructor
        · constructor
          · rw [render_timers, hclear]
            simp
          · intro e he
            rw [render_timers, hclear] at he
            exact absurd he (List.not_mem_nil e)
        · intro e he
          rw [render_timers, hclear]
          exact List.not_mem_nil e
      · rw [updateContent_debounce p env doc now delay (t0' + 1) hd hu hsome
          (by omega) hforce]
        constructor
        · refine ⟨by rw [hclear]; simp, ?_⟩
          intro e he
          rw [hclear] at he
          simp only [List.nil_append, List.mem_singleton] at he
          subst he
          exact ⟨rfl, Nat.lt_succ_self _⟩
        · intro e he
          rw [hclear]
          simp only [List.nil_append, List.mem_singleton]
          intro hcontra
          have := hfresh e he
          rw [hcontra] at this
          simp at this
  · intro p env doc now delay t0 hd hu hfirst ht0 helap
    rw [updateContent_forced p env doc now delay t0 hd hu hfirst ht0 helap]
    refine ⟨render_rendered_succ _ _ hd, ?_, render_timers _ _, ?_⟩
    · rw [render_firstUpdateRequestTime]
    · rw [render_nextTimerId]
      cases p.updateTimeoutId <;> rfl
  · intro p env doc delay t rest hd hu hfirst htimers h1 hchain hex
    simp only [processEvents, List.foldl_cons]
    have hstep : changeEventStep doc delay ⟨p, env⟩ t =
        updateContent p env doc t delay := by
      unfold changeEventStep
      rw [fireDue_of_empty p env t htimers]
    rw [hstep]
    rw [updateContent_first_event p env doc t delay hd hu (by rw [hfirst]; rfl)]
    have haux := updateContent_stream_aux doc delay rest
      { p with currentDocument := some doc,
               firstUpdateRequestTime := some t,
               updateTimeoutId := some env.nextTimerId }
      { env with
          timers := (jsClearTimeout env p.updateTimeoutId).timers ++
            [(env.nextTimerId, t + delay)],
          nextTimerId := env.nextTimerId + 1 }
      t t env.nextTimerId hd hu h1 (Nat.le_refl t) rfl rfl
      (by rw [jsClearTimeout_of_empty env p.updateTimeoutId htimers]; rfl)
      hchain hex
    simpa [processEvents] using haux

/-- C3 witness: (a) the discipline at a concrete live panel, (b) a
forced render 3999 ms into a burst, (c) nine events spaced 400 ms apart
(below the 500 ms delay), lasting 3200 ms, trigger a render. -/
theorem C3_debounce_scheduler_witness :
    (TimerInv (updateContent samplePanel envInit sampleStandalone 5 500).panel
        (updateContent samplePanel envInit sampleStandalone 5 500).env ∧
      ∀ e ∈ envInit.timers,
        e ∉ (updateContent samplePanel envInit sampleStandalone 5 500).env.timers) ∧
    (updateContent { samplePanel with firstUpdateRequestTime := some 1 }
        envInit sampleStandalone 4000 500).panel.rendered =
      ({ samplePanel with firstUpdateRequestTime := some 1 } : Panel).rendered + 1 ∧
    samplePanel.rendered <
      (processEvents sampleStandalone 500 ⟨samplePanel, envInit⟩
        (1 :: [401, 801, 1201, 1601, 2001, 2401, 2801, 3201])).panel.rendered := by
  refine ⟨C3_debounce_scheduler.1 samplePanel envInit sampleStandalone 5 500
      (by decide) (by decide) (by decide), ?_, ?_⟩
  · exact (C3_debounce_scheduler.2.1
      { samplePanel with firstUpdateRequestTime := some 1 }
      envInit sampleStandalone 4000 500 1 (by decide) (by decide) rfl
      (by decide) (by decide)).1
  · exact C3_debounce_scheduler.2.2 samplePanel envInit sampleStandalone 500 1
      [401, 801, 1201, 1601, 2001, 2401, 2801, 3201]
      (by decide) (by decide) rfl rfl (by decide)
      (by simp [List.chain_cons]) (by decide)

/-- C1 fails on the code for `all` mode: `createOrShow` never searches
for an existing instance, so two consecutive `all`-mode open requests
for the same document leave two live instances that both match
(document, `all`) in the registry. -/
theorem C1_all_mode_duplicates :
    (createOrShow (createOrShow worldInit sampleStandalone)
        sampleStandalone).panels.length = 2 ∧
    ((createOrShow (createOrShow worldInit sampleStandalone)
        sampleStandalone).panels.filter
      (fun p => !p.isDisposed &&
        panelMatches p sampleStandalone .all none)).length = 2 := by
  decide

/-- C1 amended: deduplication holds in `single` mode only.  When
`createOrShowSingle` finds a matching live instance it reveals it and
delivers the selection-change event to it instead of constructing a
duplicate — the registry keeps its size, the id counter is not consumed,
and the matched panel is updated in place; two consecutive single-mode
requests for the same line leave exactly one live matching instance.
In `all` mode `createOrShow` always constructs a new instance. -/
theorem C1_single_mode_dedup :
    (∀ (w : World) (doc : TextDocument) (line : Nat) (ex : Panel),
      findMatchingPanel w doc .single (some line) = some ex →
      (createOrShowSingle w doc line).panels.length = w.panels.length ∧
      (createOrShowSingle w doc line).nextPanelId = w.nextPanelId ∧
      (createOrShowSingle w doc line).panels =
        w.panels.map (fun q => if q.panelId = ex.panelId then
          (handleSelectionChange ex w.env doc line).panel else q)) ∧
    ((createOrShowSingle (createOrShowSingle worldInit sampleTwoBlocks 1)
        sampleTwoBlocks 1).panels.length = 1 ∧
      ((createOrShowSingle (createOrShowSingle worldInit sampleTwoBlocks 1)
          sampleTwoBlocks 1).panels.filter
        (fun p => !p.isDisposed &&
          panelMatches p sampleTwoBlocks .single (some 1))).length = 1) := by
  constructor
  · intro w doc line ex hfind
    unfold createOrShowSingle
    rw [hfind]
    exact ⟨by simp, rfl, rfl⟩
  · constructor <;> decide

/-- C1 amended, witnessed: the second single-mode request for line 1 of
the two-block document finds the first instance and reuses it. -/
theorem C1_single_mode_dedup_witness :
    (createOrShowSingle (createOrShowSingle worldInit sampleTwoBlocks 1)
        sampleTwoBlocks 1).panels.length =
      (createOrShowSingle worldInit sampleTwoBlocks 1).panels.length ∧
    (createOrShowSingle (createOrShowSingle worldInit sampleTwoBlocks 1)
        sampleTwoBlocks 1).nextPanelId =
      (createOrShowSingle worldInit sampleTwoBlocks 1).nextPanelId := by
  have h := C1_single_mode_dedup.1 (createOrShowSingle worldInit sampleTwoBlocks 1)
    sampleTwoBlocks 1
    ((createOrShowSingle worldInit sampleTwoBlocks 1).panels[0]!)
    (by decide)
  exact ⟨h.1, h.2.1⟩

theorem disposePanel_of_disposed (p : Panel) (env : Env)
    (h : p.isDisposed = true) : disposePanel p env = ⟨p, env⟩ := by
  unfold disposePanel
  rw [if_pos h]

theorem disposePanel_eq (p : Panel) (env : Env) (hd : p.isDisposed = false) :
    disposePanel p env =
      ⟨{ p with isDisposed := true, blockCache := [],
                updateTimeoutId := none },
        jsClearTimeout env p.updateTimeoutId⟩ := by
  cases hf : p.updateTimeoutId with
  | some tid =>
    unfold disposePanel
    rw [if_neg (by simp [hd])]
    simp only [hf]
    rfl
  | none =>
    unfold disposePanel
    rw [if_neg (by simp [hd])]
    simp only [hf]
    rfl

theorem disposePanel_isDisposed (p : Panel) (env : Env) :
    (disposePanel p env).panel.isDisposed = true := by
  cases hd : p.isDisposed with
  | true => rw [disposePanel_of_disposed p env hd]; exact hd
  | false => rw [disposePanel_eq p env hd]

theorem fireTimer_of_empty (p : Panel) (env : Env) (tid : Nat)
    (h : env.timers = []) : fireTimer p env tid = ⟨p, env⟩ := by
  unfold fireTimer
  rw [h]
  rfl

theorem disposeInWorld_removes (w : World) (pid : Nat) :
    ∀ q ∈ (disposeInWorld w pid).panels, ¬(q.panelId = pid) := by
  unfold disposeInWorld
  cases hf : w.panels.find? (fun p => p.panelId = pid) with
  | none =>
    intro q hq
    have := List.find?_eq_none.mp hf q hq
    simpa using this
  | some p =>
    intro q hq
    have := (List.mem_filter.mp hq).2
    simpa using this

/-- C7 amended: disposal is terminal and idempotent, removes the
instance from the registry, and cancels the pending debounce timer
(afterwards no timer of the instance can fire); `updateContent` and
`render` on a disposed instance are no-ops, checked at the top of each.
(`handleSelectionChange` lacks that check — see the counterexample — and
is guarded only by registry removal.) -/
theorem C7_disposal_semantics :
    (∀ (p : Panel) (env : Env),
      (disposePanel p env).panel.isDisposed = true ∧
      disposePanel (disposePanel p env).panel (disposePanel p env).env =
        disposePanel p env) ∧
    (∀ (w : World) (pid : Nat),
      ∀ q ∈ (disposeInWorld w pid).panels, ¬(q.panelId = pid)) ∧
    (∀ (p : Panel) (env : Env), p.isDisposed = false → TimerInv p env →
      (disposePanel p env).env.timers = [] ∧
      ∀ tid, fireTimer (disposePanel p env).panel (disposePanel p env).env
          tid = ⟨(disposePanel p env).panel, (disposePanel p env).env⟩) ∧
    (∀ (p : Panel) (env : Env) (doc : TextDocument) (now delay : Nat),
      p.isDisposed = true →
      updateContent p env doc now delay = ⟨p, env⟩ ∧
      render p env = ⟨p, env⟩) := by
  refine ⟨?_, disposeInWorld_removes, ?_, ?_⟩
  · intro p env
    refine ⟨disposePanel_isDisposed p env, ?_⟩
    exact disposePanel_of_disposed _ _ (disposePanel_isDisposed p env)
  · intro p env hd hinv
    have htim : (disposePanel p env).env.timers = [] := by
      rw [disposePanel_eq p env hd]
      exact jsClearTimeout_of_inv p env hinv
    exact ⟨htim, fun tid => fireTimer_of_empty _ _ tid htim⟩
  · intro p env doc now delay h
    exact ⟨updateContent_of_disposed p env doc now delay h,
      render_of_disposed p env h⟩

/-- C7 fails as stated for `handleSelectionChange`: it has no disposed
check.  A single-mode instance opened at a line outside any block, then
disposed, still adopts a focus and renders when `handleSelectionChange`
is invoked on it directly. -/
theorem C7_disposed_selection_renders :
    (disposePanel
        ((createOrShowSingle worldInit sampleMarkdown 5).panels[0]!)
        (createOrShowSingle worldInit sampleMarkdown 5).env).panel.isDisposed =
      true ∧
    (handleSelectionChange
        (disposePanel
          ((createOrShowSingle worldInit sampleMarkdown 5).panels[0]!)
          (createOrShowSingle worldInit sampleMarkdown 5).env).panel
        (disposePanel
          ((createOrShowSingle worldInit sampleMarkdown 5).panels[0]!)
          (createOrShowSingle worldInit sampleMarkdown 5).env).env
        sampleMarkdown 1).panel.rendered =
      (disposePanel
        ((createOrShowSingle worldInit sampleMarkdown 5).panels[0]!)
        (createOrShowSingle worldInit sampleMarkdown 5).env).panel.rendered
        + 1 ∧
    (handleSelectionChange
        (disposePanel
          ((createOrShowSingle worldInit sampleMarkdown 5).panels[0]!)
          (createOrShowSingle worldInit sampleMarkdown 5).env).panel
        (disposePanel
          ((createOrShowSingle worldInit sampleMarkdown 5).panels[0]!)
          (createOrShowSingle worldInit sampleMarkdown 5).env).env
        sampleMarkdown 1).panel.singleBlockIndex = some 0 := by
  decide

/-- C7 amended, witnessed at a concrete live panel with one pending
timer and at a concrete disposed panel. -/
theorem C7_disposal_semantics_witness :
    (disposePanel { samplePanel with updateTimeoutId := some 0 }
        ⟨[(0, 700)], 1, 0, 0⟩).env.timers = [] ∧
    updateContent { samplePanel with isDisposed := true } envInit
        sampleStandalone 7 500 =
      ⟨{ samplePanel with isDisposed := true }, envInit⟩ := by
  constructor
  · exact (C7_disposal_semantics.2.2.1
      { samplePanel with updateTimeoutId := some 0 }
      ⟨[(0, 700)], 1, 0, 0⟩ (by decide) (by decide)).1
  · exact (C7_disposal_semantics.2.2.2
      { samplePanel with isDisposed := true } envInit sampleStandalone 7 500
      (by decide)).1

end MermaidViewer
